import Mathlib

/-!
Shallow embedding of the html-to-pdf-server core (src/schema.ts, src/index.ts,
src/browser.ts) and proofs about the spec claims.

JavaScript numbers are modelled as exact rationals (ℚ); byte buffers as
`List Nat`; the sharp image codec as an oracle (`Codec`) giving, for the one
original buffer under compression, the bytes produced by each re-encode and
each resize-then-encode, plus the metadata read.  Puppeteer page operations are
modelled as an event trace with per-operation failure injection (`PageEnv`).
-/

namespace HtmlToPdf

/-- A byte buffer (`Uint8Array` / `Buffer`). -/
abbrev Bytes := List Nat

/-- The `type` enum of the export options: `'jpeg' | 'png' | 'webp'`. -/
inductive Format
  | jpeg
  | png
  | webp
deriving DecidableEq, Repr

/-- The `encoding` enum: `'base64' | 'binary'`. -/
inductive Encoding
  | base64
  | binary
deriving DecidableEq, Repr

/-- Result of `sharp(imageBuffer).metadata()`: `width`/`height` are optional
numbers in the sharp API. -/
structure Metadata where
  width : Option Nat
  height : Option Nat

/-- Oracle for the sharp codec applied to the one original image buffer of a
`compressImage` call: `encode f q` is the buffer produced by
`sharp(imageBuffer).{f}({quality: q}).toBuffer()`; `resizeEncode w h f q` the
buffer produced by `sharp(imageBuffer).resize(w, h).{f}({quality: q}).toBuffer()`;
`metadata` the result of `sharp(imageBuffer).metadata()`. -/
structure Codec where
  encode : Format → ℚ → Bytes
  resizeEncode : Nat → Nat → Format → ℚ → Bytes
  metadata : Metadata

/-- `quality || 100` in `compressImage`: JavaScript truthiness makes an absent
quality, and also a quality of exactly 0, fall back to 100. -/
def startQuality : Option ℚ → ℚ
  | none => 100
  | some q => if q = 0 then 100 else q

/-- Phase 1 of `compressImage`: `while (currentQuality >= 10)` re-encode the
original at `currentQuality`, return the first result whose length is
`<= maxFileSize`, else `currentQuality -= 10`.  `none` means the loop fell
through without producing a small-enough buffer. -/
def qualityLoop (c : Codec) (fmt : Format) (maxFileSize : ℚ) (q : ℚ) :
    Option Bytes :=
  if h : 10 ≤ q then
    let result := c.encode fmt q
    if (result.length : ℚ) ≤ maxFileSize then some result
    else qualityLoop c fmt maxFileSize (q - 10)
  else none
termination_by (⌈q⌉).toNat
decreasing_by
  have h10 : (10 : ℤ) ≤ ⌈q⌉ := by
    exact_mod_cast le_trans h (Int.le_ceil q)
  have hsub : ⌈q - 10⌉ = ⌈q⌉ - 10 := by
    have h1 : q - (10 : ℚ) = q - ((10 : ℤ) : ℚ) := by norm_num
    rw [h1, Int.ceil_sub_int]
  omega

/-- Phase 2 of `compressImage`: `while (scale >= 0.3)` resize the original to
`Math.floor(width * scale) × Math.floor(height * scale)`, re-encode at quality
70, return the first result whose length is `<= maxFileSize`, else
`scale -= 0.1`. -/
def scaleLoop (c : Codec) (fmt : Format) (maxFileSize : ℚ) (w h : Nat)
    (scale : ℚ) : Option Bytes :=
  if hs : 3 / 10 ≤ scale then
    let newWidth := (⌊(w : ℚ) * scale⌋).toNat
    let newHeight := (⌊(h : ℚ) * scale⌋).toNat
    let result := c.resizeEncode newWidth newHeight fmt 70
    if (result.length : ℚ) ≤ maxFileSize then some result
    else scaleLoop c fmt maxFileSize w h (scale - 1 / 10)
  else none
termination_by (⌈scale * 10⌉).toNat
decreasing_by
  have h3 : (3 : ℤ) ≤ ⌈scale * 10⌉ := by
    have h30 : (3 : ℚ) ≤ scale * 10 := by linarith
    exact_mod_cast le_trans h30 (Int.le_ceil (scale * 10))
  have hsub : ⌈(scale - 1 / 10) * 10⌉ = ⌈scale * 10⌉ - 1 := by
    have h1 : (scale - 1 / 10) * 10 = scale * 10 - (1 : ℤ) := by push_cast; ring
    rw [h1, Int.ceil_sub_int]
  omega

/-- `compressImage(imageBuffer, targetFormat, maxFileSize, quality)` from
src/index.ts: quality ladder, then (after one metadata read, and only when
`metadata.width && metadata.height` is truthy) the resolution ladder, else the
original buffer unchanged. -/
def compressImage (c : Codec) (imageBuffer : Bytes) (targetFormat : Format)
    (maxFileSize : ℚ) (quality : Option ℚ) : Bytes :=
  match qualityLoop c targetFormat maxFileSize (startQuality quality) with
  | some result => result
  | none =>
    match c.metadata.width, c.metadata.height with
    | some w, some h =>
      if w ≠ 0 ∧ h ≠ 0 then
        match scaleLoop c targetFormat maxFileSize w h (9 / 10) with
        | some result => result
        | none => imageBuffer
      else imageBuffer
    | _, _ => imageBuffer

/-- Instrumented variant of `qualityLoop` that also counts the number of
re-encode (`toBuffer`) calls the loop performs. -/
def qualityLoopT (c : Codec) (fmt : Format) (maxFileSize : ℚ) (q : ℚ) :
    Option Bytes × Nat :=
  if h : 10 ≤ q then
    let result := c.encode fmt q
    if (result.length : ℚ) ≤ maxFileSize then (some result, 1)
    else
      let rest := qualityLoopT c fmt maxFileSize (q - 10)
      (rest.1, rest.2 + 1)
  else (none, 0)
termination_by (⌈q⌉).toNat
decreasing_by
  have h10 : (10 : ℤ) ≤ ⌈q⌉ := by
    exact_mod_cast le_trans h (Int.le_ceil q)
  have hsub : ⌈q - 10⌉ = ⌈q⌉ - 10 := by
    have h1 : q - (10 : ℚ) = q - ((10 : ℤ) : ℚ) := by norm_num
    rw [h1, Int.ceil_sub_int]
  omega

/-- Instrumented variant of `scaleLoop` that also counts re-encode calls. -/
def scaleLoopT (c : Codec) (fmt : Format) (maxFileSize : ℚ) (w h : Nat)
    (scale : ℚ) : Option Bytes × Nat :=
  if hs : 3 / 10 ≤ scale then
    let newWidth := (⌊(w : ℚ) * scale⌋).toNat
    let newHeight := (⌊(h : ℚ) * scale⌋).toNat
    let result := c.resizeEncode newWidth newHeight fmt 70
    if (result.length : ℚ) ≤ maxFileSize then (some result, 1)
    else
      let rest := scaleLoopT c fmt maxFileSize w h (scale - 1 / 10)
      (rest.1, rest.2 + 1)
  else (none, 0)
termination_by (⌈scale * 10⌉).toNat
decreasing_by
  have h3 : (3 : ℤ) ≤ ⌈scale * 10⌉ := by
    have h30 : (3 : ℚ) ≤ scale * 10 := by linarith
    exact_mod_cast le_trans h30 (Int.le_ceil (scale * 10))
  have hsub : ⌈(scale - 1 / 10) * 10⌉ = ⌈scale * 10⌉ - 1 := by
    have h1 : (scale - 1 / 10) * 10 = scale * 10 - (1 : ℤ) := by push_cast; ring
    rw [h1, Int.ceil_sub_int]
  omega

/-- Instrumented `compressImage`: result plus the count of quality-phase
re-encodes, scale-phase re-encodes, and metadata reads. -/
def compressImageT (c : Codec) (imageBuffer : Bytes) (targetFormat : Format)
    (maxFileSize : ℚ) (quality : Option ℚ) : Bytes × Nat × Nat × Nat :=
  match qualityLoopT c targetFormat maxFileSize (startQuality quality) with
  | (some result, nq) => (result, nq, 0, 0)
  | (none, nq) =>
    match c.metadata.width, c.metadata.height with
    | some w, some h =>
      if w ≠ 0 ∧ h ≠ 0 then
        match scaleLoopT c targetFormat maxFileSize w h (9 / 10) with
        | (some result, ns) => (result, nq, ns, 1)
        | (none, ns) => (imageBuffer, nq, ns, 1)
      else (imageBuffer, nq, 0, 1)
    | _, _ => (imageBuffer, nq, 0, 1)

/-- The explicit quality ladder: the sequence of quality values the loop of
`compressImage` attempts, starting at `q` and descending by 10 while `≥ 10`. -/
def ladderList (q : ℚ) : List ℚ :=
  if h : 10 ≤ q then q :: ladderList (q - 10) else []
termination_by (⌈q⌉).toNat
decreasing_by
  have h10 : (10 : ℤ) ≤ ⌈q⌉ := by
    exact_mod_cast le_trans h (Int.le_ceil q)
  have hsub : ⌈q - 10⌉ = ⌈q⌉ - 10 := by
    have h1 : q - (10 : ℚ) = q - ((10 : ℤ) : ℚ) := by norm_num
    rw [h1, Int.ceil_sub_int]
  omega

/-- The explicit scale ladder: scale factors attempted by phase 2, starting at
`s` and descending by 0.1 while `≥ 0.3`. -/
def scaleLadder (s : ℚ) : List ℚ :=
  if hs : 3 / 10 ≤ s then s :: scaleLadder (s - 1 / 10) else []
termination_by (⌈s * 10⌉).toNat
decreasing_by
  have h3 : (3 : ℤ) ≤ ⌈s * 10⌉ := by
    have h30 : (3 : ℚ) ≤ s * 10 := by linarith
    exact_mod_cast le_trans h30 (Int.le_ceil (s * 10))
  have hsub : ⌈(s - 1 / 10) * 10⌉ = ⌈s * 10⌉ - 1 := by
    have h1 : (s - 1 / 10) * 10 = s * 10 - (1 : ℤ) := by push_cast; ring
    rw [h1, Int.ceil_sub_int]
  omega

/-- First-fit over an explicit list of quality candidates: re-encode at each
quality in order, return the first result within the budget. -/
def firstFit (c : Codec) (fmt : Format) (maxFileSize : ℚ) :
    List ℚ → Option Bytes
  | [] => none
  | q :: qs =>
    let result := c.encode fmt q
    if (result.length : ℚ) ≤ maxFileSize then some result
    else firstFit c fmt maxFileSize qs

/-- First-fit over quality candidates, counting re-encode calls. -/
def firstFitT (c : Codec) (fmt : Format) (maxFileSize : ℚ) :
    List ℚ → Option Bytes × Nat
  | [] => (none, 0)
  | q :: qs =>
    let result := c.encode fmt q
    if (result.length : ℚ) ≤ maxFileSize then (some result, 1)
    else
      let rest := firstFitT c fmt maxFileSize qs
      (rest.1, rest.2 + 1)

/-- First-fit over an explicit list of scale candidates: resize to
`⌊w·s⌋ × ⌊h·s⌋`, re-encode at quality 70, return the first result within the
budget. -/
def firstFitScale (c : Codec) (fmt : Format) (maxFileSize : ℚ) (w h : Nat) :
    List ℚ → Option Bytes
  | [] => none
  | s :: ss =>
    let result := c.resizeEncode ((⌊(w : ℚ) * s⌋).toNat) ((⌊(h : ℚ) * s⌋).toNat)
      fmt 70
    if (result.length : ℚ) ≤ maxFileSize then some result
    else firstFitScale c fmt maxFileSize w h ss

/-- First-fit over scale candidates, counting re-encode calls. -/
def firstFitScaleT (c : Codec) (fmt : Format) (maxFileSize : ℚ) (w h : Nat) :
    List ℚ → Option Bytes × Nat
  | [] => (none, 0)
  | s :: ss =>
    let result := c.resizeEncode ((⌊(w : ℚ) * s⌋).toNat) ((⌊(h : ℚ) * s⌋).toNat)
      fmt 70
    if (result.length : ℚ) ≤ maxFileSize then (some result, 1)
    else
      let rest := firstFitScaleT c fmt maxFileSize w h ss
      (rest.1, rest.2 + 1)

/-! ### Request validation (src/schema.ts)

The zod schemas are embedded as explicit validation functions.  `new URL(...)`
(in `urlCustom`) is a host-library call and is abstracted as an oracle
`urlOk : String → Bool`; `htmlCustom` rejects exactly the empty string.
Error strings for zod-generated numeric issues are representative placeholders
(zod words them slightly differently); what the claims depend on is only which
message is *not* produced and whether validation succeeds. -/

/-- A clip rectangle `{x, y, width, height}`. -/
structure Clip where
  x : ℚ
  y : ℚ
  width : ℚ
  height : ℚ

/-- A margin object `{top, right, bottom, left}` (strings in the schema). -/
structure Margin where
  top : String
  right : String
  bottom : String
  left : String

/-- A validated viewport. -/
structure Viewport where
  width : ℚ
  height : ℚ

/-- Raw (pre-validation) viewport: both fields optional with defaults. -/
structure RawViewport where
  width : Option ℚ
  height : Option ℚ

/-- Raw export options of the image schema. -/
structure RawImageExport where
  scale : Option ℚ
  type : Option Format
  quality : Option ℚ
  fullPage : Option Bool
  clip : Option Clip
  omitBackground : Option Bool
  encoding : Option Encoding
  maxFileSize : Option ℚ
  viewport : Option RawViewport

/-- Raw export options of the PDF schema (`margin` is required when the
export object is present; `maxFileSize` does not exist here). -/
structure RawPdfExport where
  scale : Option ℚ
  type : Option Format
  quality : Option ℚ
  fullPage : Option Bool
  clip : Option Clip
  omitBackground : Option Bool
  encoding : Option Encoding
  margin : Option Margin
  printBackground : Option Bool
  viewport : Option RawViewport

/-- Raw request body for `POST /image` (`export` is a Lean keyword, so the
schema field `export` is called `exportOpts` here). -/
structure RawImageRequest where
  url : Option String
  html : Option String
  exportOpts : Option RawImageExport

/-- Raw request body for `POST /pdf`. -/
structure RawPdfRequest where
  url : Option String
  html : Option String
  exportOpts : Option RawPdfExport

/-- Validated image export options (all defaults applied). -/
structure ImageExport where
  scale : ℚ
  type : Format
  quality : ℚ
  fullPage : Bool
  clip : Option Clip
  omitBackground : Bool
  encoding : Encoding
  maxFileSize : ℚ
  viewport : Option Viewport

/-- Validated PDF export options (all defaults applied). -/
structure PdfExport where
  scale : ℚ
  type : Format
  quality : ℚ
  fullPage : Bool
  clip : Option Clip
  omitBackground : Bool
  encoding : Encoding
  margin : Margin
  printBackground : Bool
  viewport : Option Viewport

/-- Validated `ImageRequest`. -/
structure ImageRequest where
  url : Option String
  html : Option String
  exportOpts : ImageExport

/-- Validated `PdfRequest`. -/
structure PdfRequest where
  url : Option String
  html : Option String
  exportOpts : PdfExport

/-- `z.number().min(lo).max(hi).default(d)`: absent means the default; a
present value outside `[lo, hi]` is rejected, never clamped. -/
def numField (lo hi d : ℚ) : Option ℚ → Except String ℚ
  | none => .ok d
  | some x =>
    if lo ≤ x ∧ x ≤ hi then .ok x else .error "Number out of range"

/-- `z.number().positive().default(d)`. -/
def posField (d : ℚ) : Option ℚ → Except String ℚ
  | none => .ok d
  | some x => if 0 < x then .ok x else .error "Number must be positive"

/-- A required field with no further constraint (zod reports `Required` when
it is absent). -/
def reqField {α : Type} : Option α → Except String α
  | some a => .ok a
  | none => .error "Required"

/-- `urlCustom` via the URL-parsing oracle: `new URL(value)` succeeding is
modelled by `urlOk value = true`. -/
def validateUrl (urlOk : String → Bool) : Option String →
    Except String (Option String)
  | none => .ok none
  | some u => if urlOk u then .ok (some u) else .error "Invalid URL"

/-- `htmlCustom`: a present but empty string is rejected. -/
def validateHtml : Option String → Except String (Option String)
  | none => .ok none
  | some s => if s = "" then .error "HTML content is required" else .ok (some s)

/-- Viewport sub-schema: `width`/`height` positive with defaults 1280/720. -/
def validateViewport : Option RawViewport → Except String (Option Viewport)
  | none => .ok none
  | some v => do
    let w ← posField 1280 v.width
    let h ← posField 720 v.height
    .ok (some ⟨w, h⟩)

/-- The `.default({...})` object of the image export schema. -/
def defaultImageExport : ImageExport :=
  ⟨1, Format.png, 100, true, none, false, Encoding.binary, 4 * 1024 * 1024,
    none⟩

/-- The `.default({...})` object of the PDF export schema. -/
def defaultPdfExport : PdfExport :=
  ⟨1, Format.png, 100, true, none, false, Encoding.binary,
    ⟨"0", "0", "0", "0"⟩, false, none⟩

/-- Field-by-field validation of the image export object. -/
def validateImageExport : Option RawImageExport → Except String ImageExport
  | none => .ok defaultImageExport
  | some e => do
    let scale ← numField (1 / 10) 2 1 e.scale
    let ty := e.type.getD Format.png
    let quality ← numField 0 100 100 e.quality
    let fullPage := e.fullPage.getD true
    let omitBackground := e.omitBackground.getD false
    let encoding := e.encoding.getD Encoding.binary
    let maxFileSize ← posField (4 * 1024 * 1024) e.maxFileSize
    let viewport ← validateViewport e.viewport
    .ok ⟨scale, ty, quality, fullPage, e.clip, omitBackground, encoding,
      maxFileSize, viewport⟩

/-- Field-by-field validation of the PDF export object (`margin` required). -/
def validatePdfExport : Option RawPdfExport → Except String PdfExport
  | none => .ok defaultPdfExport
  | some e => do
    let scale ← numField (1 / 10) 2 1 e.scale
    let ty := e.type.getD Format.png
    let quality ← numField 0 100 100 e.quality
    let fullPage := e.fullPage.getD true
    let omitBackground := e.omitBackground.getD false
    let encoding := e.encoding.getD Encoding.binary
    let margin ← reqField e.margin
    let printBackground := e.printBackground.getD false
    let viewport ← validateViewport e.viewport
    .ok ⟨scale, ty, quality, fullPage, e.clip, omitBackground, encoding,
      margin, printBackground, viewport⟩

/-- JavaScript truthiness of an optional string: defined and non-empty. -/
def strTruthy : Option String → Bool
  | none => false
  | some s => s ≠ ""

/-- `ImageRequestSchema.parse`: field validations, then the
`.refine(data => data.url || data.html)` with its fixed message.  As in zod,
the refinement only runs when the object itself parsed. -/
def validateImage (urlOk : String → Bool) (raw : RawImageRequest) :
    Except String ImageRequest := do
  let url ← validateUrl urlOk raw.url
  let html ← validateHtml raw.html
  let ex ← validateImageExport raw.exportOpts
  if strTruthy url || strTruthy html then .ok ⟨url, html, ex⟩
  else .error "Either url or html must be provided"

/-- `PdfRequestSchema.parse`. -/
def validatePdf (urlOk : String → Bool) (raw : RawPdfRequest) :
    Except String PdfRequest := do
  let url ← validateUrl urlOk raw.url
  let html ← validateHtml raw.html
  let ex ← validatePdfExport raw.exportOpts
  if strTruthy url || strTruthy html then .ok ⟨url, html, ex⟩
  else .error "Either url or html must be provided"

/-! ### Render orchestration (src/index.ts `generatePdf` / `generateImage`)

Puppeteer page operations are modelled as an event trace.  `PageEnv` injects a
failure (a rejected promise) into any of the awaited page operations; the
orchestrator is translated statement by statement, recording which operations
were invoked.  `page.close()` appears in the trace as `Ev.close` exactly when
the source reaches the `page.close()` statement. -/

/-- One puppeteer page operation performed on the request page. -/
inductive Ev
  | newPage
  | setViewport
  | goto (url : String)
  | setContent (html : String)
  | pdf
  | screenshot
  | close
deriving DecidableEq, Repr

/-- Failure injection for the awaited page operations, plus the bytes the
capture produces when it succeeds. -/
structure PageEnv where
  setViewportFails : Bool
  gotoFails : Bool
  setContentFails : Bool
  captureFails : Bool
  captureBytes : Bytes

/-- `if (body.export.viewport) await page.setViewport(...)`. -/
def viewportStep (env : PageEnv) (vp : Option Viewport) :
    Except String Unit × List Ev :=
  match vp with
  | some _ =>
    if env.setViewportFails then (.error "setViewport failed", [Ev.setViewport])
    else (.ok (), [Ev.setViewport])
  | none => (.ok (), [])

/-- The `if (body.url) ... else if (body.html) ... else throw` block shared by
`generatePdf` and `generateImage`: `body.url`/`body.html` are tested for
JavaScript truthiness. -/
def loadTarget (env : PageEnv) (url html : Option String) :
    Except String Unit × List Ev :=
  if strTruthy url then
    if env.gotoFails then (.error "goto failed", [Ev.goto (url.getD "")])
    else (.ok (), [Ev.goto (url.getD "")])
  else if strTruthy html then
    if env.setContentFails then
      (.error "setContent failed", [Ev.setContent (html.getD "")])
    else (.ok (), [Ev.setContent (html.getD "")])
  else (.error "url or html is required", [])

/-- `generatePdf(body)`: open a page, viewport, load target, `page.pdf`,
`page.close()` (reached only when every earlier await resolved). -/
def generatePdfM (env : PageEnv) (body : PdfRequest) :
    Except String Bytes × List Ev :=
  match viewportStep env body.exportOpts.viewport with
  | (.error e, t) => (.error e, Ev.newPage :: t)
  | (.ok _, t1) =>
    match loadTarget env body.url body.html with
    | (.error e, t) => (.error e, Ev.newPage :: (t1 ++ t))
    | (.ok _, t2) =>
      if env.captureFails then
        (.error "pdf failed", Ev.newPage :: (t1 ++ t2 ++ [Ev.pdf]))
      else
        (.ok env.captureBytes,
          Ev.newPage :: (t1 ++ t2 ++ [Ev.pdf, Ev.close]))

/-- The fitting step at the end of `generateImage`: compress only when the
captured bytes exceed `maxFileSize` (strict `>`), passing
`body.export.quality` as the quality argument. -/
def fitStep (c : Codec) (res : Bytes) (fmt : Format) (maxFileSize : ℚ)
    (quality : ℚ) : Bytes :=
  if (res.length : ℚ) > maxFileSize then
    compressImage c res fmt maxFileSize (some quality)
  else res

/-- Instrumented `fitStep` with codec call counts, as in `compressImageT`. -/
def fitStepT (c : Codec) (res : Bytes) (fmt : Format) (maxFileSize : ℚ)
    (quality : ℚ) : Bytes × Nat × Nat × Nat :=
  if (res.length : ℚ) > maxFileSize then
    compressImageT c res fmt maxFileSize (some quality)
  else (res, 0, 0, 0)

/-- `generateImage(body)`: open a page, viewport, load target,
`page.screenshot`, `await page.close()`, then the fitting step. -/
def generateImageM (env : PageEnv) (c : Codec) (body : ImageRequest) :
    Except String Bytes × List Ev :=
  match viewportStep env body.exportOpts.viewport with
  | (.error e, t) => (.error e, Ev.newPage :: t)
  | (.ok _, t1) =>
    match loadTarget env body.url body.html with
    | (.error e, t) => (.error e, Ev.newPage :: (t1 ++ t))
    | (.ok _, t2) =>
      if env.captureFails then
        (.error "screenshot failed",
          Ev.newPage :: (t1 ++ t2 ++ [Ev.screenshot]))
      else
        (.ok (fitStep c env.captureBytes body.exportOpts.type
            body.exportOpts.maxFileSize body.exportOpts.quality),
          Ev.newPage :: (t1 ++ t2 ++ [Ev.screenshot, Ev.close]))

/-- The `POST /pdf` route: zValidator rejects with 400 before any browser
work; otherwise the handler runs `generatePdf` and converts a thrown error
into a 400 envelope.  Result: status, error message (if any), page-event
trace. -/
def handlePdf (urlOk : String → Bool) (env : PageEnv) (raw : RawPdfRequest) :
    Nat × Option String × List Ev :=
  match validatePdf urlOk raw with
  | .error e => (400, some e, [])
  | .ok body =>
    match generatePdfM env body with
    | (.ok _, t) => (200, none, t)
    | (.error e, t) => (400, some e, t)

/-- The `POST /image` route. -/
def handleImage (urlOk : String → Bool) (env : PageEnv) (c : Codec)
    (raw : RawImageRequest) : Nat × Option String × List Ev :=
  match validateImage urlOk raw with
  | .error e => (400, some e, [])
  | .ok body =>
    match generateImageM env c body with
    | (.ok _, t) => (200, none, t)
    | (.error e, t) => (400, some e, t)

/-! ### Concrete instances used in witnesses and counterexamples -/

/-- A codec whose every re-encode yields two bytes; with a budget below 2
nothing ever fits.  Metadata reports 4×3. -/
def bigCodec : Codec :=
  ⟨fun _ _ => [0, 0], fun _ _ _ _ => [0, 0], ⟨some 4, some 3⟩⟩

/-- Like `bigCodec` but the metadata has no width. -/
def noMetaCodec : Codec :=
  ⟨fun _ _ => [0, 0], fun _ _ _ _ => [0, 0], ⟨none, some 3⟩⟩

/-- A raw image export object whose only present field is `quality: 0`. -/
def rawExportQualityZero : RawImageExport :=
  ⟨none, none, some 0, none, none, none, none, none, none⟩

/-- The empty request body `{}`. -/
def rawImageEmpty : RawImageRequest := ⟨none, none, none⟩

/-- The empty request body `{}`. -/
def rawPdfEmpty : RawPdfRequest := ⟨none, none, none⟩

/-- A body with neither `url` nor `html` but an out-of-range `export.scale`
(and a well-formed margin). -/
def rawPdfScaleFive : RawPdfRequest :=
  ⟨none, none,
    some ⟨some 5, none, none, none, none, none, none,
      some ⟨"0", "0", "0", "0"⟩, none, none⟩⟩

/-- A raw image request carrying only a url. -/
def rawImageUrlOnly : RawImageRequest :=
  ⟨some "https://example.com", none, none⟩

/-- The validated form of `rawImageUrlOnly`. -/
def imageReqUrlOnly : ImageRequest :=
  ⟨some "https://example.com", none, defaultImageExport⟩

/-- Page environment in which every operation succeeds. -/
def envOk : PageEnv := ⟨false, false, false, false, [1, 2, 3]⟩

/-- Page environment in which `page.goto` rejects. -/
def envGotoFail : PageEnv := ⟨false, true, false, false, [1, 2, 3]⟩

/-- Page environment in which the capture call rejects. -/
def envCaptureFail : PageEnv := ⟨false, false, false, true, [1, 2, 3]⟩

/-- A validated PDF request with a url target only. -/
def pdfBodyUrl : PdfRequest :=
  ⟨some "https://example.com", none, defaultPdfExport⟩

/-- A validated image request with a url target only. -/
def imgBodyUrl : ImageRequest :=
  ⟨some "https://example.com", none, defaultImageExport⟩

/-- A validated PDF request with both url and html present. -/
def pdfBodyBoth : PdfRequest :=
  ⟨some "https://example.com", some "<p>x</p>", defaultPdfExport⟩

/-- A validated image request with both url and html present. -/
def imgBodyBoth : ImageRequest :=
  ⟨some "https://example.com", some "<p>x</p>", defaultImageExport⟩

/-! ### Unfolding lemmas for the while-loops -/

theorem qualityLoop_pos (c : Codec) (fmt : Format) (m q : ℚ) (h : 10 ≤ q) :
    qualityLoop c fmt m q =
      (if ((c.encode fmt q).length : ℚ) ≤ m then some (c.encode fmt q)
       else qualityLoop c fmt m (q - 10)) := by
  rw [qualityLoop.eq_def, dif_pos h]

theorem qualityLoop_neg (c : Codec) (fmt : Format) (m q : ℚ) (h : ¬ 10 ≤ q) :
    qualityLoop c fmt m q = none := by
  rw [qualityLoop.eq_def, dif_neg h]

theorem qualityLoopT_pos (c : Codec) (fmt : Format) (m q : ℚ) (h : 10 ≤ q) :
    qualityLoopT c fmt m q =
      (if ((c.encode fmt q).length : ℚ) ≤ m then (some (c.encode fmt q), 1)
       else ((qualityLoopT c fmt m (q - 10)).1,
         (qualityLoopT c fmt m (q - 10)).2 + 1)) := by
  rw [qualityLoopT.eq_def, dif_pos h]

theorem qualityLoopT_neg (c : Codec) (fmt : Format) (m q : ℚ) (h : ¬ 10 ≤ q) :
    qualityLoopT c fmt m q = (none, 0) := by
  rw [qualityLoopT.eq_def, dif_neg h]

theorem scaleLoop_pos (c : Codec) (fmt : Format) (m : ℚ) (w h : Nat) (s : ℚ)
    (hs : 3 / 10 ≤ s) :
    scaleLoop c fmt m w h s =
      (if ((c.resizeEncode ((⌊(w : ℚ) * s⌋).toNat) ((⌊(h : ℚ) * s⌋).toNat)
            fmt 70).length : ℚ) ≤ m then
        some (c.resizeEncode ((⌊(w : ℚ) * s⌋).toNat) ((⌊(h : ℚ) * s⌋).toNat)
          fmt 70)
       else scaleLoop c fmt m w h (s - 1 / 10)) := by
  rw [scaleLoop.eq_def, dif_pos hs]

theorem scaleLoop_neg (c : Codec) (fmt : Format) (m : ℚ) (w h : Nat) (s : ℚ)
    (hs : ¬ 3 / 10 ≤ s) : scaleLoop c fmt m w h s = none := by
  rw [scaleLoop.eq_def, dif_neg hs]

theorem scaleLoopT_pos (c : Codec) (fmt : Format) (m : ℚ) (w h : Nat) (s : ℚ)
    (hs : 3 / 10 ≤ s) :
    scaleLoopT c fmt m w h s =
      (if ((c.resizeEncode ((⌊(w : ℚ) * s⌋).toNat) ((⌊(h : ℚ) * s⌋).toNat)
            fmt 70).length : ℚ) ≤ m then
        (some (c.resizeEncode ((⌊(w : ℚ) * s⌋).toNat) ((⌊(h : ℚ) * s⌋).toNat)
          fmt 70), 1)
       else ((scaleLoopT c fmt m w h (s - 1 / 10)).1,
         (scaleLoopT c fmt m w h (s - 1 / 10)).2 + 1)) := by
  rw [scaleLoopT.eq_def, dif_pos hs]

theorem scaleLoopT_neg (c : Codec) (fmt : Format) (m : ℚ) (w h : Nat) (s : ℚ)
    (hs : ¬ 3 / 10 ≤ s) : scaleLoopT c fmt m w h s = (none, 0) := by
  rw [scaleLoopT.eq_def, dif_neg hs]

theorem ladderList_pos (q : ℚ) (h : 10 ≤ q) :
    ladderList q = q :: ladderList (q - 10) := by
  rw [ladderList.eq_def, dif_pos h]

theorem ladderList_neg (q : ℚ) (h : ¬ 10 ≤ q) : ladderList q = [] := by
  rw [ladderList.eq_def, dif_neg h]

theorem scaleLadder_pos (s : ℚ) (h : 3 / 10 ≤ s) :
    scaleLadder s = s :: scaleLadder (s - 1 / 10) := by
  rw [scaleLadder.eq_def, dif_pos h]

theorem scaleLadder_neg (s : ℚ) (h : ¬ 3 / 10 ≤ s) : scaleLadder s = [] := by
  rw [scaleLadder.eq_def, dif_neg h]

/-! ### The loops are first-fit searches over the explicit ladders -/

theorem exists_ten_mul_bound (q : ℚ) : ∃ k : Nat, q ≤ 10 * k := by
  refine ⟨(⌈q⌉).toNat, ?_⟩
  rcases le_or_lt q 0 with h | h
  · have h0 : (0 : ℚ) ≤ 10 * ((⌈q⌉).toNat : ℚ) := by positivity
    linarith
  · have h2 : (0 : ℤ) ≤ ⌈q⌉ := Int.ceil_nonneg h.le
    have h3 : (((⌈q⌉).toNat : ℕ) : ℚ) = ((⌈q⌉ : ℤ) : ℚ) := by
      exact_mod_cast Int.toNat_of_nonneg h2
    have h1 : q ≤ ((⌈q⌉ : ℤ) : ℚ) := Int.le_ceil q
    have h4 : (0 : ℚ) ≤ ((⌈q⌉ : ℤ) : ℚ) := by exact_mod_cast h2
    rw [h3]
    linarith

theorem exists_scale_bound (s : ℚ) : ∃ k : Nat, 10 * s ≤ 2 + k := by
  obtain ⟨k, hk⟩ := exists_ten_mul_bound (10 * s)
  refine ⟨10 * k, ?_⟩
  push_cast at hk ⊢
  linarith

theorem qualityLoop_firstFit_bound (c : Codec) (fmt : Format) (m : ℚ) :
    ∀ (k : Nat) (q : ℚ), q ≤ 10 * k →
      qualityLoop c fmt m q = firstFit c fmt m (ladderList q) ∧
      qualityLoopT c fmt m q = firstFitT c fmt m (ladderList q) := by
  intro k
  induction k with
  | zero =>
    intro q hq
    have h : ¬ 10 ≤ q := by
      push_cast at hq
      intro hc
      linarith
    rw [qualityLoop_neg _ _ _ _ h, qualityLoopT_neg _ _ _ _ h,
      ladderList_neg _ h]
    exact ⟨rfl, rfl⟩
  | succ k ih =>
    intro q hq
    by_cases h : 10 ≤ q
    · have hq10 : q - 10 ≤ 10 * k := by
        push_cast at hq ⊢
        linarith
      obtain ⟨ih1, ih2⟩ := ih (q - 10) hq10
      rw [qualityLoop_pos _ _ _ _ h, qualityLoopT_pos _ _ _ _ h,
        ladderList_pos _ h]
      simp only [firstFit, firstFitT]
      by_cases hfit : ((c.encode fmt q).length : ℚ) ≤ m
      · simp only [if_pos hfit]
        refine ⟨?_, ?_⟩ <;> trivial
      · simp only [if_neg hfit]
        rw [ih1, ih2]
        exact ⟨rfl, rfl⟩
    · rw [qualityLoop_neg _ _ _ _ h, qualityLoopT_neg _ _ _ _ h,
        ladderList_neg _ h]
      exact ⟨rfl, rfl⟩

theorem qualityLoop_eq_firstFit (c : Codec) (fmt : Format) (m q : ℚ) :
    qualityLoop c fmt m q = firstFit c fmt m (ladderList q) := by
  obtain ⟨k, hk⟩ := exists_ten_mul_bound q
  exact (qualityLoop_firstFit_bound c fmt m k q hk).1

theorem qualityLoopT_eq_firstFitT (c : Codec) (fmt : Format) (m q : ℚ) :
    qualityLoopT c fmt m q = firstFitT c fmt m (ladderList q) := by
  obtain ⟨k, hk⟩ := exists_ten_mul_bound q
  exact (qualityLoop_firstFit_bound c fmt m k q hk).2

theorem scaleLoop_firstFit_bound (c : Codec) (fmt : Format) (m : ℚ)
    (w h : Nat) :
    ∀ (k : Nat) (s : ℚ), 10 * s ≤ 2 + k →
      scaleLoop c fmt m w h s = firstFitScale c fmt m w h (scaleLadder s) ∧
      scaleLoopT c fmt m w h s = firstFitScaleT c fmt m w h (scaleLadder s)
    := by
  intro k
  induction k with
  | zero =>
    intro s hs
    have hns : ¬ 3 / 10 ≤ s := by
      push_cast at hs
      intro hc
      linarith
    rw [scaleLoop_neg _ _ _ _ _ _ hns, scaleLoopT_neg _ _ _ _ _ _ hns,
      scaleLadder_neg _ hns]
    exact ⟨rfl, rfl⟩
  | succ k ih =>
    intro s hs
    by_cases hge : 3 / 10 ≤ s
    · have hs1 : 10 * (s - 1 / 10) ≤ 2 + k := by
        push_cast at hs ⊢
        linarith
      obtain ⟨ih1, ih2⟩ := ih (s - 1 / 10) hs1
      rw [scaleLoop_pos _ _ _ _ _ _ hge, scaleLoopT_pos _ _ _ _ _ _ hge,
        scaleLadder_pos _ hge]
      simp only [firstFitScale, firstFitScaleT]
      by_cases hfit : ((c.resizeEncode ((⌊(w : ℚ) * s⌋).toNat)
          ((⌊(h : ℚ) * s⌋).toNat) fmt 70).length : ℚ) ≤ m
      · simp only [if_pos hfit]
        refine ⟨?_, ?_⟩ <;> trivial
      · simp only [if_neg hfit]
        rw [ih1, ih2]
        exact ⟨rfl, rfl⟩
    · rw [scaleLoop_neg _ _ _ _ _ _ hge, scaleLoopT_neg _ _ _ _ _ _ hge,
        scaleLadder_neg _ hge]
      exact ⟨rfl, rfl⟩

theorem scaleLoop_eq_firstFitScale (c : Codec) (fmt : Format) (m : ℚ)
    (w h : Nat) (s : ℚ) :
    scaleLoop c fmt m w h s = firstFitScale c fmt m w h (scaleLadder s) := by
  obtain ⟨k, hk⟩ := exists_scale_bound s
  exact (scaleLoop_firstFit_bound c fmt m w h k s hk).1

theorem scaleLoopT_eq_firstFitScaleT (c : Codec) (fmt : Format) (m : ℚ)
    (w h : Nat) (s : ℚ) :
    scaleLoopT c fmt m w h s = firstFitScaleT c fmt m w h (scaleLadder s)
    := by
  obtain ⟨k, hk⟩ := exists_scale_bound s
  exact (scaleLoop_firstFit_bound c fmt m w h k s hk).2

/-! ### List-level facts about first-fit searches -/

theorem firstFitT_fst (c : Codec) (fmt : Format) (m : ℚ) :
    ∀ l : List ℚ, (firstFitT c fmt m l).1 = firstFit c fmt m l := by
  intro l
  induction l with
  | nil => rfl
  | cons q qs ih =>
    simp only [firstFit, firstFitT]
    by_cases hfit : ((c.encode fmt q).length : ℚ) ≤ m
    · simp [hfit]
    · simp [hfit, ih]

theorem firstFitT_count_le (c : Codec) (fmt : Format) (m : ℚ) :
    ∀ l : List ℚ, (firstFitT c fmt m l).2 ≤ l.length := by
  intro l
  induction l with
  | nil => simp [firstFitT]
  | cons q qs ih =>
    simp only [firstFitT, List.length_cons]
    by_cases hfit : ((c.encode fmt q).length : ℚ) ≤ m
    · simp [hfit]
    · simp only [if_neg hfit]
      omega

theorem firstFit_none_of_never (c : Codec) (fmt : Format) (m : ℚ)
    (hn : ∀ q : ℚ, ¬ ((c.encode fmt q).length : ℚ) ≤ m) :
    ∀ l : List ℚ, firstFit c fmt m l = none := by
  intro l
  induction l with
  | nil => rfl
  | cons q qs ih => simp [firstFit, hn q, ih]

theorem firstFitT_of_never (c : Codec) (fmt : Format) (m : ℚ)
    (hn : ∀ q : ℚ, ¬ ((c.encode fmt q).length : ℚ) ≤ m) :
    ∀ l : List ℚ, firstFitT c fmt m l = (none, l.length) := by
  intro l
  induction l with
  | nil => rfl
  | cons q qs ih => simp [firstFitT, hn q, ih]

theorem firstFitScaleT_fst (c : Codec) (fmt : Format) (m : ℚ) (w h : Nat) :
    ∀ l : List ℚ,
      (firstFitScaleT c fmt m w h l).1 = firstFitScale c fmt m w h l := by
  intro l
  induction l with
  | nil => rfl
  | cons s ss ih =>
    simp only [firstFitScale, firstFitScaleT]
    by_cases hfit : ((c.resizeEncode ((⌊(w : ℚ) * s⌋).toNat)
        ((⌊(h : ℚ) * s⌋).toNat) fmt 70).length : ℚ) ≤ m
    · simp [hfit]
    · simp [hfit, ih]

theorem firstFitScaleT_count_le (c : Codec) (fmt : Format) (m : ℚ)
    (w h : Nat) :
    ∀ l : List ℚ, (firstFitScaleT c fmt m w h l).2 ≤ l.length := by
  intro l
  induction l with
  | nil => simp [firstFitScaleT]
  | cons s ss ih =>
    simp only [firstFitScaleT, List.length_cons]
    by_cases hfit : ((c.resizeEncode ((⌊(w : ℚ) * s⌋).toNat)
        ((⌊(h : ℚ) * s⌋).toNat) fmt 70).length : ℚ) ≤ m
    · simp [hfit]
    · simp only [if_neg hfit]
      omega

theorem firstFitScale_none_of_never (c : Codec) (fmt : Format) (m : ℚ)
    (w h : Nat)
    (hn : ∀ (a b : Nat) (q : ℚ),
      ¬ ((c.resizeEncode a b fmt q).length : ℚ) ≤ m) :
    ∀ l : List ℚ, firstFitScale c fmt m w h l = none := by
  intro l
  induction l with
  | nil => rfl
  | cons s ss ih => simp [firstFitScale, hn, ih]

/-! ### Projections of the instrumented loops -/

theorem qualityLoopT_fst (c : Codec) (fmt : Format) (m q : ℚ) :
    (qualityLoopT c fmt m q).1 = qualityLoop c fmt m q := by
  rw [qualityLoopT_eq_firstFitT, qualityLoop_eq_firstFit, firstFitT_fst]

theorem scaleLoopT_fst (c : Codec) (fmt : Format) (m : ℚ) (w h : Nat)
    (s : ℚ) : (scaleLoopT c fmt m w h s).1 = scaleLoop c fmt m w h s := by
  rw [scaleLoopT_eq_firstFitScaleT, scaleLoop_eq_firstFitScale,
    firstFitScaleT_fst]

/-! ### Ladder lengths and membership -/

theorem ladderList_length_le :
    ∀ (k : Nat) (q : ℚ), q ≤ 10 * k → (ladderList q).length ≤ k := by
  intro k
  induction k with
  | zero =>
    intro q hq
    have h : ¬ 10 ≤ q := by
      push_cast at hq
      intro hc
      linarith
    simp [ladderList_neg _ h]
  | succ k ih =>
    intro q hq
    by_cases h : 10 ≤ q
    · rw [ladderList_pos _ h]
      simp only [List.length_cons]
      have hrec := ih (q - 10) (by push_cast at hq ⊢; linarith)
      omega
    · simp [ladderList_neg _ h]

theorem scaleLadder_length_le :
    ∀ (k : Nat) (s : ℚ), 10 * s ≤ 2 + k → (scaleLadder s).length ≤ k := by
  intro k
  induction k with
  | zero =>
    intro s hs
    have h : ¬ 3 / 10 ≤ s := by
      push_cast at hs
      intro hc
      linarith
    simp [scaleLadder_neg _ h]
  | succ k ih =>
    intro s hs
    by_cases h : 3 / 10 ≤ s
    · rw [scaleLadder_pos _ h]
      simp only [List.length_cons]
      have hrec := ih (s - 1 / 10) (by push_cast at hs ⊢; linarith)
      omega
    · simp [scaleLadder_neg _ h]

theorem ladderList_mem :
    ∀ (k : Nat) (q : ℚ), 10 ≤ q - 10 * k → (q - 10 * k) ∈ ladderList q := by
  intro k
  induction k with
  | zero =>
    intro q hq
    norm_num at hq ⊢
    rw [ladderList_pos _ hq]
    exact List.mem_cons_self _ _
  | succ k ih =>
    intro q hq
    have hq1 : 10 ≤ (q - 10) - 10 * (k : ℚ) := by
      push_cast at hq ⊢
      linarith
    have h10 : 10 ≤ q := by
      push_cast at hq
      linarith
    have heq : q - 10 * ((k + 1 : ℕ) : ℚ) = (q - 10) - 10 * (k : ℚ) := by
      push_cast
      ring
    rw [ladderList_pos _ h10, heq]
    exact List.mem_cons_of_mem _ (ih (q - 10) hq1)

/-! ### The two concrete ladders of the source -/

theorem ladderList_hundred :
    ladderList 100 = [100, 90, 80, 70, 60, 50, 40, 30, 20, 10] := by
  rw [ladderList_pos 100 (by norm_num), show (100 : ℚ) - 10 = 90 from by
    norm_num]
  rw [ladderList_pos 90 (by norm_num), show (90 : ℚ) - 10 = 80 from by
    norm_num]
  rw [ladderList_pos 80 (by norm_num), show (80 : ℚ) - 10 = 70 from by
    norm_num]
  rw [ladderList_pos 70 (by norm_num), show (70 : ℚ) - 10 = 60 from by
    norm_num]
  rw [ladderList_pos 60 (by norm_num), show (60 : ℚ) - 10 = 50 from by
    norm_num]
  rw [ladderList_pos 50 (by norm_num), show (50 : ℚ) - 10 = 40 from by
    norm_num]
  rw [ladderList_pos 40 (by norm_num), show (40 : ℚ) - 10 = 30 from by
    norm_num]
  rw [ladderList_pos 30 (by norm_num), show (30 : ℚ) - 10 = 20 from by
    norm_num]
  rw [ladderList_pos 20 (by norm_num), show (20 : ℚ) - 10 = 10 from by
    norm_num]
  rw [ladderList_pos 10 (by norm_num), show (10 : ℚ) - 10 = 0 from by
    norm_num]
  rw [ladderList_neg 0 (by norm_num)]

theorem scaleLadder_nine :
    scaleLadder (9 / 10) =
      [9 / 10, 8 / 10, 7 / 10, 6 / 10, 5 / 10, 4 / 10, 3 / 10] := by
  rw [scaleLadder_pos _ (by norm_num), show (9 : ℚ) / 10 - 1 / 10 = 8 / 10
    from by norm_num]
  rw [scaleLadder_pos _ (by norm_num), show (8 : ℚ) / 10 - 1 / 10 = 7 / 10
    from by norm_num]
  rw [scaleLadder_pos _ (by norm_num), show (7 : ℚ) / 10 - 1 / 10 = 6 / 10
    from by norm_num]
  rw [scaleLadder_pos _ (by norm_num), show (6 : ℚ) / 10 - 1 / 10 = 5 / 10
    from by norm_num]
  rw [scaleLadder_pos _ (by norm_num), show (5 : ℚ) / 10 - 1 / 10 = 4 / 10
    from by norm_num]
  rw [scaleLadder_pos _ (by norm_num), show (4 : ℚ) / 10 - 1 / 10 = 3 / 10
    from by norm_num]
  rw [scaleLadder_pos _ (by norm_num), show (3 : ℚ) / 10 - 1 / 10 = 2 / 10
    from by norm_num]
  rw [scaleLadder_neg _ (by norm_num)]

/-! ### Facts about `compressImage` -/

theorem qualityLoop_none_of_never (c : Codec) (fmt : Format) (m : ℚ)
    (hn : ∀ q : ℚ, ¬ ((c.encode fmt q).length : ℚ) ≤ m) (q : ℚ) :
    qualityLoop c fmt m q = none := by
  rw [qualityLoop_eq_firstFit]
  exact firstFit_none_of_never c fmt m hn _

theorem scaleLoop_none_of_never (c : Codec) (fmt : Format) (m : ℚ)
    (w h : Nat)
    (hn : ∀ (a b : Nat) (qv : ℚ),
      ¬ ((c.resizeEncode a b fmt qv).length : ℚ) ≤ m) (s : ℚ) :
    scaleLoop c fmt m w h s = none := by
  rw [scaleLoop_eq_firstFitScale]
  exact firstFitScale_none_of_never c fmt m w h hn _

theorem compressImageT_fst (c : Codec) (buf : Bytes) (fmt : Format) (m : ℚ)
    (q : Option ℚ) :
    (compressImageT c buf fmt m q).1 = compressImage c buf fmt m q := by
  have hql := qualityLoopT_fst c fmt m (startQuality q)
  unfold compressImage compressImageT
  rcases hq : qualityLoopT c fmt m (startQuality q) with ⟨oq, nq⟩
  rw [hq] at hql
  simp only at hql
  rw [← hql]
  rcases oq with _ | b
  · rcases hw : c.metadata.width with _ | w <;>
      rcases hh : c.metadata.height with _ | hv
    · simp
    · simp
    · simp
    · by_cases hwh : w ≠ 0 ∧ hv ≠ 0
      · simp only [if_pos hwh]
        have hslf := scaleLoopT_fst c fmt m w hv (9 / 10)
        rcases hs : scaleLoopT c fmt m w hv (9 / 10) with ⟨os, ns⟩
        rw [hs] at hslf
        simp only at hslf
        rw [← hslf]
        rcases os with _ | b2 <;> simp
      · simp only [if_neg hwh]
  · simp

theorem compressImage_of_quality_some (c : Codec) (buf : Bytes)
    (fmt : Format) (m : ℚ) (q : Option ℚ) (r : Bytes)
    (h : qualityLoop c fmt m (startQuality q) = some r) :
    compressImage c buf fmt m q = r := by
  unfold compressImage
  rw [h]

theorem compressImage_of_scale_phase (c : Codec) (buf : Bytes) (fmt : Format)
    (m : ℚ) (q : Option ℚ) (w h : Nat)
    (hq : qualityLoop c fmt m (startQuality q) = none)
    (hw : c.metadata.width = some w) (hh : c.metadata.height = some h)
    (hw0 : w ≠ 0) (hh0 : h ≠ 0) :
    compressImage c buf fmt m q =
      (match scaleLoop c fmt m w h (9 / 10) with
       | some r => r
       | none => buf) := by
  unfold compressImage
  rw [hq, hw, hh]
  simp [hw0, hh0]

theorem firstFitScaleT_of_never (c : Codec) (fmt : Format) (m : ℚ)
    (w h : Nat)
    (hn : ∀ (a b : Nat) (qv : ℚ),
      ¬ ((c.resizeEncode a b fmt qv).length : ℚ) ≤ m) :
    ∀ l : List ℚ, firstFitScaleT c fmt m w h l = (none, l.length) := by
  intro l
  induction l with
  | nil => rfl
  | cons sv ss ih => simp [firstFitScaleT, hn, ih]

/-! ### Claim C2 -/

/-- **C2, counterexample.**  With the default start (quality unset, hence
100) and a budget nothing fits, the quality ladder performs 10 re-encodes
(100, 90, …, 10), not at most 9 as claimed. -/
theorem quality_ladder_performs_ten_reencodes :
    (compressImageT bigCodec [0, 0, 0] Format.jpeg 1 none).2.1 = 10 ∧
    ¬ (compressImageT bigCodec [0, 0, 0] Format.jpeg 1 none).2.1 ≤ 9 := by
  have hn : ∀ qv : ℚ, ¬ ((bigCodec.encode Format.jpeg qv).length : ℚ) ≤ 1 := by
    intro qv
    norm_num [bigCodec]
  have hns : ∀ (a b : Nat) (qv : ℚ),
      ¬ ((bigCodec.resizeEncode a b Format.jpeg qv).length : ℚ) ≤ 1 := by
    intro a b qv
    norm_num [bigCodec]
  have hq : qualityLoopT bigCodec Format.jpeg 1 (startQuality none) =
      (none, 10) := by
    rw [show startQuality none = 100 from rfl, qualityLoopT_eq_firstFitT,
      ladderList_hundred, firstFitT_of_never _ _ _ hn]
    rfl
  have hs : scaleLoopT bigCodec Format.jpeg 1 4 3 (9 / 10) = (none, 7) := by
    rw [scaleLoopT_eq_firstFitScaleT, scaleLadder_nine,
      firstFitScaleT_of_never _ _ _ _ _ hns]
    rfl
  have hres : (compressImageT bigCodec [0, 0, 0] Format.jpeg 1 none).2.1 = 10
    := by
    unfold compressImageT
    rw [hq]
    show (match bigCodec.metadata.width, bigCodec.metadata.height with
      | some w, some h =>
        if w ≠ 0 ∧ h ≠ 0 then
          match scaleLoopT bigCodec Format.jpeg 1 w h (9 / 10) with
          | (some result, ns) => (result, 10, ns, 1)
          | (none, ns) => ([0, 0, 0], 10, ns, 1)
        else ([0, 0, 0], 10, 0, 1)
      | _, _ => ([0, 0, 0], 10, 0, 1)).2.1 = 10
    rw [show bigCodec.metadata.width = some 4 from rfl,
      show bigCodec.metadata.height = some 3 from rfl]
    simp only [if_pos (by norm_num : (4 : Nat) ≠ 0 ∧ (3 : Nat) ≠ 0)]
    rw [hs]
  exact ⟨hres, by omega⟩

/-- **C2, amended.**  For any codec and any validator-legal quality argument
(absent, or between 0 and 100), one `compressImage` invocation performs at
most 10 quality-phase re-encodes, at most 7 scale-phase re-encodes, at most
17 re-encodes in total, and at most one metadata read; the instrumented
fitter computes the same bytes as `compressImage`. -/
theorem fitter_reencode_bounds (c : Codec) (buf : Bytes) (fmt : Format)
    (m : ℚ) (q : Option ℚ)
    (hq : q = none ∨ ∃ x : ℚ, q = some x ∧ 0 ≤ x ∧ x ≤ 100) :
    (compressImageT c buf fmt m q).2.1 ≤ 10 ∧
    (compressImageT c buf fmt m q).2.2.1 ≤ 7 ∧
    (compressImageT c buf fmt m q).2.1 + (compressImageT c buf fmt m q).2.2.1
      ≤ 17 ∧
    (compressImageT c buf fmt m q).2.2.2 ≤ 1 ∧
    (compressImageT c buf fmt m q).1 = compressImage c buf fmt m q := by
  have hstart : startQuality q ≤ 100 := by
    rcases hq with h | ⟨x, hx, hx0, hx100⟩
    · rw [h]
      norm_num [startQuality]
    · rw [hx]
      show (if x = 0 then (100 : ℚ) else x) ≤ 100
      by_cases h0 : x = 0
      · rw [if_pos h0]
      · rw [if_neg h0]
        exact hx100
  have hnq : (qualityLoopT c fmt m (startQuality q)).2 ≤ 10 := by
    rw [qualityLoopT_eq_firstFitT]
    refine le_trans (firstFitT_count_le c fmt m _) ?_
    refine ladderList_length_le 10 _ ?_
    push_cast
    linarith
  have hns : ∀ (w hv : Nat), (scaleLoopT c fmt m w hv (9 / 10)).2 ≤ 7 := by
    intro w hv
    rw [scaleLoopT_eq_firstFitScaleT, scaleLadder_nine]
    exact firstFitScaleT_count_le c fmt m w hv _
  have hfst := compressImageT_fst c buf fmt m q
  have key : (compressImageT c buf fmt m q).2.1 ≤ 10 ∧
      (compressImageT c buf fmt m q).2.2.1 ≤ 7 ∧
      (compressImageT c buf fmt m q).2.2.2 ≤ 1 := by
    unfold compressImageT
    rcases hql : qualityLoopT c fmt m (startQuality q) with ⟨oq, nq⟩
    rw [hql] at hnq
    simp only at hnq
    rcases oq with _ | b
    · rcases hw : c.metadata.width with _ | w <;>
        rcases hh : c.metadata.height with _ | hv
      · exact ⟨hnq, Nat.zero_le _, le_refl 1⟩
      · exact ⟨hnq, Nat.zero_le _, le_refl 1⟩
      · exact ⟨hnq, Nat.zero_le _, le_refl 1⟩
      · by_cases hwh : w ≠ 0 ∧ hv ≠ 0
        · simp only [if_pos hwh]
          have h7 := hns w hv
          rcases hsl : scaleLoopT c fmt m w hv (9 / 10) with ⟨os, ns⟩
          rw [hsl] at h7
          simp only at h7
          rcases os with _ | b2
          · exact ⟨hnq, h7, le_refl 1⟩
          · exact ⟨hnq, h7, le_refl 1⟩
        · simp only [if_neg hwh]
          exact ⟨hnq, Nat.zero_le _, le_refl 1⟩
    · exact ⟨hnq, Nat.zero_le _, Nat.zero_le _⟩
  obtain ⟨k1, k2, k3⟩ := key
  exact ⟨k1, k2, by omega, k3, hfst⟩

/-- Witness for `fitter_reencode_bounds` at the concrete codec and call of
the counterexample. -/
theorem fitter_reencode_bounds_witness :
    (compressImageT bigCodec [0, 0, 0] Format.jpeg 1 none).2.1 ≤ 10 ∧
    (compressImageT bigCodec [0, 0, 0] Format.jpeg 1 none).2.2.1 ≤ 7 ∧
    (compressImageT bigCodec [0, 0, 0] Format.jpeg 1 none).2.1 +
      (compressImageT bigCodec [0, 0, 0] Format.jpeg 1 none).2.2.1 ≤ 17 ∧
    (compressImageT bigCodec [0, 0, 0] Format.jpeg 1 none).2.2.2 ≤ 1 ∧
    (compressImageT bigCodec [0, 0, 0] Format.jpeg 1 none).1 =
      compressImage bigCodec [0, 0, 0] Format.jpeg 1 none :=
  fitter_reencode_bounds bigCodec [0, 0, 0] Format.jpeg 1 none (Or.inl rfl)

/-! ### Claim C3 -/

/-- **C3.**  If every quality-ladder re-encode and every resolution-ladder
candidate stays over the budget, or if the quality ladder fails and the
metadata carries no usable dimensions, `compressImage` returns the original
input bytes unchanged (and, being total, raises no error). -/
theorem fitter_fallback_returns_original (c : Codec) (buf : Bytes)
    (fmt : Format) (m : ℚ) (q : Option ℚ) :
    ((∀ qv : ℚ, ¬ ((c.encode fmt qv).length : ℚ) ≤ m) →
     (∀ (a b : Nat) (qv : ℚ),
       ¬ ((c.resizeEncode a b fmt qv).length : ℚ) ≤ m) →
     compressImage c buf fmt m q = buf) ∧
    ((∀ qv : ℚ, ¬ ((c.encode fmt qv).length : ℚ) ≤ m) →
     (c.metadata.width = none ∨ c.metadata.height = none ∨
      c.metadata.width = some 0 ∨ c.metadata.height = some 0) →
     compressImage c buf fmt m q = buf) := by
  constructor
  · intro hn hns
    have hq0 := qualityLoop_none_of_never c fmt m hn (startQuality q)
    unfold compressImage
    rw [hq0]
    rcases hw : c.metadata.width with _ | w <;>
      rcases hh : c.metadata.height with _ | hv
    · rfl
    · rfl
    · rfl
    · by_cases hwh : w ≠ 0 ∧ hv ≠ 0
      · simp only [if_pos hwh]
        rw [scaleLoop_none_of_never c fmt m w hv hns (9 / 10)]
      · simp only [if_neg hwh]
  · intro hn hdeg
    have hq0 := qualityLoop_none_of_never c fmt m hn (startQuality q)
    unfold compressImage
    rw [hq0]
    rcases hdeg with hd | hd | hd | hd
    · rw [hd]
    · rw [hd]
      rcases hw : c.metadata.width with _ | w
      · rfl
      · rfl
    · rw [hd]
      rcases hh : c.metadata.height with _ | hv
      · rfl
      · simp
    · rw [hd]
      rcases hw : c.metadata.width with _ | w
      · rfl
      · simp

/-- Witness for `fitter_fallback_returns_original`: with `bigCodec` (4×3
metadata, every candidate 2 bytes, budget 1) and with `noMetaCodec` the
original bytes come back. -/
theorem fitter_fallback_returns_original_witness :
    compressImage bigCodec [9] Format.png 1 none = [9] ∧
    compressImage noMetaCodec [9] Format.png 1 none = [9] :=
  ⟨(fitter_fallback_returns_original bigCodec [9] Format.png 1 none).1
      (fun qv => by norm_num [bigCodec])
      (fun a b qv => by norm_num [bigCodec]),
   (fitter_fallback_returns_original noMetaCodec [9] Format.png 1 none).2
      (fun qv => by norm_num [noMetaCodec]) (Or.inl rfl)⟩

/-! ### Claim C4 -/

/-- **C4.**  The fitting step of `generateImage` only invokes the compressor
when the captured bytes strictly exceed `maxFileSize`; bytes already within
the budget are returned unchanged with zero codec calls. -/
theorem fit_step_noop_when_within_budget (c : Codec) (res : Bytes)
    (fmt : Format) (m : ℚ) (q : ℚ) (h : (res.length : ℚ) ≤ m) :
    fitStep c res fmt m q = res ∧ fitStepT c res fmt m q = (res, 0, 0, 0)
    := by
  have hng : ¬ ((res.length : ℚ) > m) := not_lt.mpr h
  constructor
  · unfold fitStep
    rw [if_neg hng]
  · unfold fitStepT
    rw [if_neg hng]

/-- Witness for `fit_step_noop_when_within_budget`. -/
theorem fit_step_noop_when_within_budget_witness :
    fitStep bigCodec [1, 2] Format.png 5 80 = [1, 2] ∧
    fitStepT bigCodec [1, 2] Format.png 5 80 = ([1, 2], 0, 0, 0) :=
  fit_step_noop_when_within_budget bigCodec [1, 2] Format.png 5 80
    (by norm_num)

/-! ### Claim C5 -/

/-- **C5.**  For a truthy initial quality `q` the quality ladder starts at
`q` (and at 100 when the quality argument is absent), descends in steps of
10 while the value is still ≥ 10, and the loop is exactly the first-fit
search over that descending ladder; a first fit is returned immediately as
the fitter result. -/
theorem quality_ladder_descends_first_fit (c : Codec) (fmt : Format)
    (m : ℚ) (buf : Bytes) (q : ℚ) (hq : q ≠ 0) :
    startQuality (some q) = q ∧
    startQuality none = 100 ∧
    qualityLoop c fmt m q = firstFit c fmt m (ladderList q) ∧
    (10 ≤ q → ladderList q = q :: ladderList (q - 10)) ∧
    (∀ k : Nat, 10 ≤ q - 10 * k → (q - 10 * k) ∈ ladderList q) ∧
    (∀ r : Bytes, qualityLoop c fmt m (startQuality (some q)) = some r →
      compressImage c buf fmt m (some q) = r) := by
  refine ⟨?_, rfl, qualityLoop_eq_firstFit c fmt m q,
    fun h => ladderList_pos q h, fun k hk => ladderList_mem k q hk,
    fun r hr => compressImage_of_quality_some c buf fmt m (some q) r hr⟩
  show (if q = 0 then (100 : ℚ) else q) = q
  rw [if_neg hq]

/-- Witness for `quality_ladder_descends_first_fit` at `q = 100`: the loop
is the first-fit over the explicit ladder and the value 10 = 100 − 10·9 is
among the attempted steps. -/
theorem quality_ladder_descends_first_fit_witness :
    qualityLoop bigCodec Format.jpeg 1 100 =
      firstFit bigCodec Format.jpeg 1 (ladderList 100) ∧
    ((100 : ℚ) - 10 * (9 : Nat)) ∈ ladderList 100 :=
  ⟨(quality_ladder_descends_first_fit bigCodec Format.jpeg 1 [] 100
      (by norm_num)).2.2.1,
   (quality_ladder_descends_first_fit bigCodec Format.jpeg 1 [] 100
      (by norm_num)).2.2.2.2.1 9 (by norm_num)⟩

/-! ### Claim C7 -/

/-- **C7.**  When the quality ladder fails and the metadata has truthy
dimensions, the fitter result is decided by the resolution ladder, which is
the first-fit search over the scales 0.9, 0.8, …, 0.3, each candidate
resized to `⌊w·s⌋ × ⌊h·s⌋` and re-encoded at fixed quality 70. -/
theorem scale_ladder_descends_first_fit (c : Codec) (buf : Bytes)
    (fmt : Format) (m : ℚ) (q : Option ℚ) (w h : Nat)
    (hq : qualityLoop c fmt m (startQuality q) = none)
    (hw : c.metadata.width = some w) (hh : c.metadata.height = some h)
    (hw0 : w ≠ 0) (hh0 : h ≠ 0) :
    compressImage c buf fmt m q =
      (match firstFitScale c fmt m w h
          [9 / 10, 8 / 10, 7 / 10, 6 / 10, 5 / 10, 4 / 10, 3 / 10] with
       | some r => r
       | none => buf) ∧
    scaleLoop c fmt m w h (9 / 10) =
      firstFitScale c fmt m w h
        [9 / 10, 8 / 10, 7 / 10, 6 / 10, 5 / 10, 4 / 10, 3 / 10] := by
  have h2 : scaleLoop c fmt m w h (9 / 10) =
      firstFitScale c fmt m w h
        [9 / 10, 8 / 10, 7 / 10, 6 / 10, 5 / 10, 4 / 10, 3 / 10] := by
    rw [scaleLoop_eq_firstFitScale, scaleLadder_nine]
  refine ⟨?_, h2⟩
  rw [compressImage_of_scale_phase c buf fmt m q w h hq hw hh hw0 hh0, h2]

/-- Witness for `scale_ladder_descends_first_fit` at `bigCodec`. -/
theorem scale_ladder_descends_first_fit_witness :
    compressImage bigCodec [7] Format.webp 1 none =
      (match firstFitScale bigCodec Format.webp 1 4 3
          [9 / 10, 8 / 10, 7 / 10, 6 / 10, 5 / 10, 4 / 10, 3 / 10] with
       | some r => r
       | none => [7]) ∧
    scaleLoop bigCodec Format.webp 1 4 3 (9 / 10) =
      firstFitScale bigCodec Format.webp 1 4 3
        [9 / 10, 8 / 10, 7 / 10, 6 / 10, 5 / 10, 4 / 10, 3 / 10] :=
  scale_ladder_descends_first_fit bigCodec [7] Format.webp 1 none 4 3
    (qualityLoop_none_of_never bigCodec Format.webp 1
      (fun qv => by norm_num [bigCodec]) _)
    rfl rfl (by norm_num) (by norm_num)

/-! ### Claim C10 -/

/-- **C10.**  A quality of exactly 0 passes validation (it is in `[0,100]`)
yet `quality || 100` is a truthiness test, so the fitter behaves exactly as
if the quality were unset: the ladder starts at 100. -/
theorem zero_quality_treated_as_unset (c : Codec) (buf : Bytes)
    (fmt : Format) (m : ℚ) :
    startQuality (some 0) = 100 ∧
    compressImage c buf fmt m (some 0) = compressImage c buf fmt m none ∧
    validateImageExport (some rawExportQualityZero) =
      .ok { defaultImageExport with quality := 0 } := by
  refine ⟨rfl, rfl, rfl⟩

/-! ### Except-bind helpers for the validator proofs -/

theorem exceptBind_ok {α β : Type} (x : Except String α)
    (f : α → Except String β) (b : β) (h : (x >>= f) = .ok b) :
    ∃ a, x = .ok a ∧ f a = .ok b := by
  cases x with
  | ok a => exact ⟨a, rfl, h⟩
  | error e => simp [Bind.bind, Except.bind] at h

theorem numField_some (lo hi d v : ℚ) :
    numField lo hi d (some v) =
      if lo ≤ v ∧ v ≤ hi then .ok v else .error "Number out of range" := rfl

theorem numField_ok (lo hi d : ℚ) (o : Option ℚ) (x : ℚ)
    (hd : lo ≤ d ∧ d ≤ hi) (h : numField lo hi d o = .ok x) :
    lo ≤ x ∧ x ≤ hi := by
  cases o with
  | none =>
    cases h
    exact hd
  | some v =>
    rw [numField_some] at h
    by_cases hv : lo ≤ v ∧ v ≤ hi
    · rw [if_pos hv] at h
      cases h
      exact hv
    · rw [if_neg hv] at h
      cases h

theorem numField_out (lo hi d v : ℚ) (hv : v < lo ∨ hi < v) :
    numField lo hi d (some v) = .error "Number out of range" := by
  rw [numField_some, if_neg]
  intro hc
  rcases hv with h | h
  · linarith [hc.1]
  · linarith [hc.2]

theorem validateImageExport_ok (o : Option RawImageExport)
    (ex : ImageExport) (h : validateImageExport o = .ok ex) :
    (1 / 10 ≤ ex.scale ∧ ex.scale ≤ 2) ∧
    (0 ≤ ex.quality ∧ ex.quality ≤ 100) := by
  cases o with
  | none =>
    cases h
    norm_num [defaultImageExport]
  | some e =>
    unfold validateImageExport at h
    try dsimp only at h
    obtain ⟨sc, hsc, h⟩ := exceptBind_ok _ _ _ h
    try dsimp only at h
    obtain ⟨qu, hqu, h⟩ := exceptBind_ok _ _ _ h
    try dsimp only at h
    obtain ⟨mf, hmf, h⟩ := exceptBind_ok _ _ _ h
    try dsimp only at h
    obtain ⟨vp, hvp, h⟩ := exceptBind_ok _ _ _ h
    cases h
    exact ⟨numField_ok _ _ _ _ _ (by norm_num) hsc,
      numField_ok _ _ _ _ _ (by norm_num) hqu⟩

theorem validatePdfExport_ok (o : Option RawPdfExport)
    (ex : PdfExport) (h : validatePdfExport o = .ok ex) :
    (1 / 10 ≤ ex.scale ∧ ex.scale ≤ 2) ∧
    (0 ≤ ex.quality ∧ ex.quality ≤ 100) := by
  cases o with
  | none =>
    cases h
    norm_num [defaultPdfExport]
  | some e =>
    unfold validatePdfExport at h
    try dsimp only at h
    obtain ⟨sc, hsc, h⟩ := exceptBind_ok _ _ _ h
    try dsimp only at h
    obtain ⟨qu, hqu, h⟩ := exceptBind_ok _ _ _ h
    try dsimp only at h
    obtain ⟨mg, hmg, h⟩ := exceptBind_ok _ _ _ h
    try dsimp only at h
    obtain ⟨vp, hvp, h⟩ := exceptBind_ok _ _ _ h
    cases h
    exact ⟨numField_ok _ _ _ _ _ (by norm_num) hsc,
      numField_ok _ _ _ _ _ (by norm_num) hqu⟩

theorem validateImage_ok_parts (urlOk : String → Bool)
    (raw : RawImageRequest) (req : ImageRequest)
    (h : validateImage urlOk raw = .ok req) :
    validateImageExport raw.exportOpts = .ok req.exportOpts := by
  unfold validateImage at h
  obtain ⟨u1, hu1, h⟩ := exceptBind_ok _ _ _ h
  obtain ⟨h1, hh1, h⟩ := exceptBind_ok _ _ _ h
  obtain ⟨ex, hex, h⟩ := exceptBind_ok _ _ _ h
  by_cases hc : (strTruthy u1 || strTruthy h1) = true
  · rw [if_pos hc] at h
    cases h
    exact hex
  · rw [if_neg hc] at h
    cases h

theorem validatePdf_ok_parts (urlOk : String → Bool)
    (raw : RawPdfRequest) (req : PdfRequest)
    (h : validatePdf urlOk raw = .ok req) :
    validatePdfExport raw.exportOpts = .ok req.exportOpts := by
  unfold validatePdf at h
  obtain ⟨u1, hu1, h⟩ := exceptBind_ok _ _ _ h
  obtain ⟨h1, hh1, h⟩ := exceptBind_ok _ _ _ h
  obtain ⟨ex, hex, h⟩ := exceptBind_ok _ _ _ h
  by_cases hc : (strTruthy u1 || strTruthy h1) = true
  · rw [if_pos hc] at h
    cases h
    exact hex
  · rw [if_neg hc] at h
    cases h

theorem validateImageExport_scale_reject (e : RawImageExport) (v : ℚ)
    (hs : e.scale = some v) (hout : v < 1 / 10 ∨ 2 < v) :
    ∀ ex, validateImageExport (some e) ≠ .ok ex := by
  intro ex h
  unfold validateImageExport at h
  try dsimp only at h
  obtain ⟨sc, hsc, h⟩ := exceptBind_ok _ _ _ h
  rw [hs, numField_out _ _ _ _ hout] at hsc
  cases hsc

theorem validateImageExport_quality_reject (e : RawImageExport) (v : ℚ)
    (hq : e.quality = some v) (hout : v < 0 ∨ 100 < v) :
    ∀ ex, validateImageExport (some e) ≠ .ok ex := by
  intro ex h
  unfold validateImageExport at h
  try dsimp only at h
  obtain ⟨sc, hsc, h⟩ := exceptBind_ok _ _ _ h
  try dsimp only at h
  obtain ⟨qu, hqu, h⟩ := exceptBind_ok _ _ _ h
  rw [hq, numField_out _ _ _ _ hout] at hqu
  cases hqu

theorem validatePdfExport_scale_reject (e : RawPdfExport) (v : ℚ)
    (hs : e.scale = some v) (hout : v < 1 / 10 ∨ 2 < v) :
    ∀ ex, validatePdfExport (some e) ≠ .ok ex := by
  intro ex h
  unfold validatePdfExport at h
  try dsimp only at h
  obtain ⟨sc, hsc, h⟩ := exceptBind_ok _ _ _ h
  rw [hs, numField_out _ _ _ _ hout] at hsc
  cases hsc

theorem validatePdfExport_quality_reject (e : RawPdfExport) (v : ℚ)
    (hq : e.quality = some v) (hout : v < 0 ∨ 100 < v) :
    ∀ ex, validatePdfExport (some e) ≠ .ok ex := by
  intro ex h
  unfold validatePdfExport at h
  try dsimp only at h
  obtain ⟨sc, hsc, h⟩ := exceptBind_ok _ _ _ h
  try dsimp only at h
  obtain ⟨qu, hqu, h⟩ := exceptBind_ok _ _ _ h
  rw [hq, numField_out _ _ _ _ hout] at hqu
  cases hqu

/-! ### Claim C6 -/

/-- **C6.**  A request that validates has `scale ∈ [0.1, 2]` and
`quality ∈ [0, 100]` after defaulting; a request whose `export.scale` or
`export.quality` lies outside those closed intervals never validates — the
out-of-range value is rejected, not clamped.  Both the PDF and the image
schema are covered. -/
theorem validator_bounds_reject_not_clamp (urlOk : String → Bool) :
    (∀ (raw : RawImageRequest) (req : ImageRequest),
      validateImage urlOk raw = .ok req →
        1 / 10 ≤ req.exportOpts.scale ∧ req.exportOpts.scale ≤ 2 ∧
        0 ≤ req.exportOpts.quality ∧ req.exportOpts.quality ≤ 100) ∧
    (∀ (raw : RawPdfRequest) (req : PdfRequest),
      validatePdf urlOk raw = .ok req →
        1 / 10 ≤ req.exportOpts.scale ∧ req.exportOpts.scale ≤ 2 ∧
        0 ≤ req.exportOpts.quality ∧ req.exportOpts.quality ≤ 100) ∧
    (∀ (raw : RawImageRequest) (e : RawImageExport) (v : ℚ),
      raw.exportOpts = some e → e.scale = some v → (v < 1 / 10 ∨ 2 < v) →
      ∀ req, validateImage urlOk raw ≠ .ok req) ∧
    (∀ (raw : RawImageRequest) (e : RawImageExport) (v : ℚ),
      raw.exportOpts = some e → e.quality = some v → (v < 0 ∨ 100 < v) →
      ∀ req, validateImage urlOk raw ≠ .ok req) ∧
    (∀ (raw : RawPdfRequest) (e : RawPdfExport) (v : ℚ),
      raw.exportOpts = some e → e.scale = some v → (v < 1 / 10 ∨ 2 < v) →
      ∀ req, validatePdf urlOk raw ≠ .ok req) ∧
    (∀ (raw : RawPdfRequest) (e : RawPdfExport) (v : ℚ),
      raw.exportOpts = some e → e.quality = some v → (v < 0 ∨ 100 < v) →
      ∀ req, validatePdf urlOk raw ≠ .ok req) := by
  refine ⟨?_, ?_, ?_, ?_, ?_, ?_⟩
  · intro raw req h
    obtain ⟨⟨a, b⟩, ⟨c, d⟩⟩ :=
      validateImageExport_ok _ _ (validateImage_ok_parts urlOk raw req h)
    exact ⟨a, b, c, d⟩
  · intro raw req h
    obtain ⟨⟨a, b⟩, ⟨c, d⟩⟩ :=
      validatePdfExport_ok _ _ (validatePdf_ok_parts urlOk raw req h)
    exact ⟨a, b, c, d⟩
  · intro raw e v he hs hout req h
    have hex := validateImage_ok_parts urlOk raw req h
    rw [he] at hex
    exact validateImageExport_scale_reject e v hs hout _ hex
  · intro raw e v he hq hout req h
    have hex := validateImage_ok_parts urlOk raw req h
    rw [he] at hex
    exact validateImageExport_quality_reject e v hq hout _ hex
  · intro raw e v he hs hout req h
    have hex := validatePdf_ok_parts urlOk raw req h
    rw [he] at hex
    exact validatePdfExport_scale_reject e v hs hout _ hex
  · intro raw e v he hq hout req h
    have hex := validatePdf_ok_parts urlOk raw req h
    rw [he] at hex
    exact validatePdfExport_quality_reject e v hq hout _ hex

/-- Witness for `validator_bounds_reject_not_clamp`: the defaulted bounds of
a concrete valid request, and the rejection of a body whose `scale` is 5. -/
theorem validator_bounds_reject_not_clamp_witness :
    (1 / 10 ≤ imageReqUrlOnly.exportOpts.scale ∧
     imageReqUrlOnly.exportOpts.scale ≤ 2 ∧
     0 ≤ imageReqUrlOnly.exportOpts.quality ∧
     imageReqUrlOnly.exportOpts.quality ≤ 100) ∧
    validatePdf (fun _ => true) rawPdfScaleFive ≠ .ok pdfBodyUrl :=
  ⟨(validator_bounds_reject_not_clamp (fun _ => true)).1 rawImageUrlOnly
      imageReqUrlOnly rfl,
   (validator_bounds_reject_not_clamp (fun _ => true)).2.2.2.2.1
      rawPdfScaleFive
      ⟨some 5, none, none, none, none, none, none,
        some ⟨"0", "0", "0", "0"⟩, none, none⟩
      5 rfl rfl (by norm_num) pdfBodyUrl⟩

/-! ### Claim C9 -/

theorem validateImage_missing_target (urlOk : String → Bool)
    (raw : RawImageRequest) (hu : raw.url = none) (hh : raw.html = none) :
    ∀ body, validateImage urlOk raw ≠ .ok body := by
  intro body h
  unfold validateImage at h
  rw [hu, hh] at h
  rcases hex : validateImageExport raw.exportOpts with e | ex <;>
    rw [hex] at h <;>
    simp [validateUrl, validateHtml, Bind.bind, Except.bind, strTruthy] at h

theorem validatePdf_missing_target (urlOk : String → Bool)
    (raw : RawPdfRequest) (hu : raw.url = none) (hh : raw.html = none) :
    ∀ body, validatePdf urlOk raw ≠ .ok body := by
  intro body h
  unfold validatePdf at h
  rw [hu, hh] at h
  rcases hex : validatePdfExport raw.exportOpts with e | ex <;>
    rw [hex] at h <;>
    simp [validateUrl, validateHtml, Bind.bind, Except.bind, strTruthy] at h

/-- **C9, counterexample.**  A body with neither `url` nor `html` but an
out-of-range `export.scale` fails validation with the numeric field error;
the refinement (and with it the `Either url or html must be provided`
message) never runs, because in zod refinements only run on a parsed
object. -/
theorem missing_target_masked_by_field_error :
    rawPdfScaleFive.url = none ∧ rawPdfScaleFive.html = none ∧
    validatePdf (fun _ => true) rawPdfScaleFive =
      .error "Number out of range" ∧
    "Number out of range" ≠ "Either url or html must be provided" := by
  refine ⟨rfl, rfl, ?_, by decide⟩
  have hexp : validatePdfExport (some ⟨some 5, none, none, none, none, none,
      none, some ⟨"0", "0", "0", "0"⟩, none, none⟩) =
      .error "Number out of range" := by
    unfold validatePdfExport
    dsimp only
    rw [numField_out (1 / 10) 2 1 5 (by norm_num)]
    rfl
  unfold validatePdf
  rw [show rawPdfScaleFive.url = none from rfl,
    show rawPdfScaleFive.html = none from rfl,
    show rawPdfScaleFive.exportOpts = some ⟨some 5, none, none, none, none,
      none, none, some ⟨"0", "0", "0", "0"⟩, none, none⟩ from rfl, hexp]
  rfl

/-- **C9, amended.**  A body with neither `url` nor `html` always fails
validation and never touches the browser (the returned trace is empty and
the status is 400); when the export options themselves are valid, the
failure carries exactly the message `Either url or html must be
provided`. -/
theorem missing_target_rejected_before_browser (urlOk : String → Bool)
    (env : PageEnv) (c : Codec) (rawI : RawImageRequest)
    (rawP : RawPdfRequest) (hiu : rawI.url = none) (hih : rawI.html = none)
    (hpu : rawP.url = none) (hph : rawP.html = none) :
    (∀ ex, validateImageExport rawI.exportOpts = .ok ex →
      validateImage urlOk rawI =
        .error "Either url or html must be provided") ∧
    (∀ ex, validatePdfExport rawP.exportOpts = .ok ex →
      validatePdf urlOk rawP =
        .error "Either url or html must be provided") ∧
    (handleImage urlOk env c rawI).1 = 400 ∧
    (handleImage urlOk env c rawI).2.2 = [] ∧
    (handlePdf urlOk env rawP).1 = 400 ∧
    (handlePdf urlOk env rawP).2.2 = [] := by
  have himg : (handleImage urlOk env c rawI).1 = 400 ∧
      (handleImage urlOk env c rawI).2.2 = [] := by
    unfold handleImage
    rcases hv : validateImage urlOk rawI with e | body
    · exact ⟨rfl, rfl⟩
    · exact absurd hv (validateImage_missing_target urlOk rawI hiu hih body)
  have hpdf : (handlePdf urlOk env rawP).1 = 400 ∧
      (handlePdf urlOk env rawP).2.2 = [] := by
    unfold handlePdf
    rcases hv : validatePdf urlOk rawP with e | body
    · exact ⟨rfl, rfl⟩
    · exact absurd hv (validatePdf_missing_target urlOk rawP hpu hph body)
  refine ⟨?_, ?_, himg.1, himg.2, hpdf.1, hpdf.2⟩
  · intro ex hex
    unfold validateImage
    rw [hiu, hih, hex]
    rfl
  · intro ex hex
    unfold validatePdf
    rw [hpu, hph, hex]
    rfl

/-- Witness for `missing_target_rejected_before_browser` at the empty
body `{}`. -/
theorem missing_target_rejected_before_browser_witness :
    validateImage (fun _ => true) rawImageEmpty =
      .error "Either url or html must be provided" ∧
    validatePdf (fun _ => true) rawPdfEmpty =
      .error "Either url or html must be provided" ∧
    (handleImage (fun _ => true) envOk bigCodec rawImageEmpty).1 = 400 ∧
    (handleImage (fun _ => true) envOk bigCodec rawImageEmpty).2.2 = [] ∧
    (handlePdf (fun _ => true) envOk rawPdfEmpty).1 = 400 ∧
    (handlePdf (fun _ => true) envOk rawPdfEmpty).2.2 = [] := by
  have T := missing_target_rejected_before_browser (fun _ => true) envOk
    bigCodec rawImageEmpty rawPdfEmpty rfl rfl rfl rfl
  exact ⟨T.1 defaultImageExport rfl, T.2.1 defaultPdfExport rfl, T.2.2.1,
    T.2.2.2.1, T.2.2.2.2.1, T.2.2.2.2.2⟩

/-! ### Claim C1 -/

/-- **C1 (code bug).**  On the success path the page is closed exactly once,
but when `page.goto` or the capture call rejects, the error propagates
before the `page.close()` statement is reached (there is no try/finally in
`generatePdf`/`generateImage`): the failure path closes the page zero
times, contradicting the spec's close-exactly-once discipline. -/
theorem page_close_only_on_success :
    (generatePdfM envOk pdfBodyUrl).1 = .ok [1, 2, 3] ∧
    (generatePdfM envOk pdfBodyUrl).2.count Ev.close = 1 ∧
    (generateImageM envOk bigCodec imgBodyUrl).2.count Ev.close = 1 ∧
    (generatePdfM envGotoFail pdfBodyUrl).1 = .error "goto failed" ∧
    (generatePdfM envGotoFail pdfBodyUrl).2.count Ev.close = 0 ∧
    (generateImageM envCaptureFail bigCodec imgBodyUrl).1 =
      .error "screenshot failed" ∧
    (generateImageM envCaptureFail bigCodec imgBodyUrl).2.count Ev.close = 0
    := by
  refine ⟨rfl, rfl, rfl, rfl, rfl, rfl, rfl⟩

/-! ### Claim C8 -/

theorem generatePdfM_url_trace (env : PageEnv) (body : PdfRequest)
    (u : String) (hu : body.url = some u) (hne : u ≠ "") :
    (∀ s, Ev.setContent s ∉ (generatePdfM env body).2) ∧
    (env.setViewportFails = false → env.gotoFails = false →
      Ev.goto u ∈ (generatePdfM env body).2) := by
  unfold generatePdfM viewportStep loadTarget
  rw [hu]
  constructor
  · intro s
    rcases hvp : body.exportOpts.viewport with _ | v <;>
      by_cases h1 : env.setViewportFails <;>
      by_cases h2 : env.gotoFails <;>
      by_cases h3 : env.captureFails <;>
      simp [h1, h2, h3, strTruthy, hne]
  · intro hv1 hv2
    rcases hvp : body.exportOpts.viewport with _ | v <;>
      by_cases h3 : env.captureFails <;>
      simp [hv1, hv2, h3, strTruthy, hne]

theorem generateImageM_url_trace (env : PageEnv) (c : Codec)
    (body : ImageRequest) (u : String) (hu : body.url = some u)
    (hne : u ≠ "") :
    (∀ s, Ev.setContent s ∉ (generateImageM env c body).2) ∧
    (env.setViewportFails = false → env.gotoFails = false →
      Ev.goto u ∈ (generateImageM env c body).2) := by
  unfold generateImageM viewportStep loadTarget
  rw [hu]
  constructor
  · intro s
    rcases hvp : body.exportOpts.viewport with _ | v <;>
      by_cases h1 : env.setViewportFails <;>
      by_cases h2 : env.gotoFails <;>
      by_cases h3 : env.captureFails <;>
      simp [h1, h2, h3, strTruthy, hne]
  · intro hv1 hv2
    rcases hvp : body.exportOpts.viewport with _ | v <;>
      by_cases h3 : env.captureFails <;>
      simp [hv1, hv2, h3, strTruthy, hne]

theorem validate_both_ok (urlOk : String → Bool) (u hs : String)
    (hok : urlOk u = true) (hu : u ≠ "") (hh : hs ≠ "") :
    validatePdf urlOk ⟨some u, some hs, none⟩ =
      .ok ⟨some u, some hs, defaultPdfExport⟩ ∧
    validateImage urlOk ⟨some u, some hs, none⟩ =
      .ok ⟨some u, some hs, defaultImageExport⟩ := by
  constructor
  · simp [validatePdf, validateUrl, validateHtml, validatePdfExport, hok,
      hu, hh, strTruthy, Bind.bind, Except.bind]
  · simp [validateImage, validateUrl, validateHtml, validateImageExport,
      hok, hu, hh, strTruthy, Bind.bind, Except.bind]

/-- **C8.**  When both `url` and `html` are present and non-empty, the
orchestrator navigates to the url — `setContent` is never invoked, and on a
run whose pre-navigation steps succeed the trace contains the navigation to
`u` — and the validator accepts a body carrying both fields (url wins at
capture; presence of both is not a validation failure). -/
theorem url_precedence_over_html (env : PageEnv) (c : Codec)
    (pbody : PdfRequest) (ibody : ImageRequest) (u hs : String)
    (hpu : pbody.url = some u) (_hph : pbody.html = some hs)
    (hiu : ibody.url = some u) (_hih : ibody.html = some hs)
    (hune : u ≠ "") (hhne : hs ≠ "") :
    (∀ s, Ev.setContent s ∉ (generatePdfM env pbody).2) ∧
    (∀ s, Ev.setContent s ∉ (generateImageM env c ibody).2) ∧
    (env.setViewportFails = false → env.gotoFails = false →
      Ev.goto u ∈ (generatePdfM env pbody).2 ∧
      Ev.goto u ∈ (generateImageM env c ibody).2) ∧
    (∀ urlOk : String → Bool, urlOk u = true →
      validatePdf urlOk ⟨some u, some hs, none⟩ =
        .ok ⟨some u, some hs, defaultPdfExport⟩ ∧
      validateImage urlOk ⟨some u, some hs, none⟩ =
        .ok ⟨some u, some hs, defaultImageExport⟩) := by
  obtain ⟨p1, p2⟩ := generatePdfM_url_trace env pbody u hpu hune
  obtain ⟨i1, i2⟩ := generateImageM_url_trace env c ibody u hiu hune
  exact ⟨p1, i1, fun h1 h2 => ⟨p2 h1 h2, i2 h1 h2⟩,
    fun urlOk hok => validate_both_ok urlOk u hs hok hune hhne⟩

/-- Witness for `url_precedence_over_html` on a concrete body carrying both
targets. -/
theorem url_precedence_over_html_witness :
    Ev.setContent "<p>x</p>" ∉ (generatePdfM envOk pdfBodyBoth).2 ∧
    Ev.goto "https://example.com" ∈ (generatePdfM envOk pdfBodyBoth).2 ∧
    Ev.goto "https://example.com" ∈
      (generateImageM envOk bigCodec imgBodyBoth).2 ∧
    validateImage (fun _ => true)
        ⟨some "https://example.com", some "<p>x</p>", none⟩ =
      .ok ⟨some "https://example.com", some "<p>x</p>", defaultImageExport⟩
    := by
  have T := url_precedence_over_html envOk bigCodec pdfBodyBoth imgBodyBoth
    "https://example.com" "<p>x</p>" rfl rfl rfl rfl (by decide) (by decide)
  exact ⟨T.1 "<p>x</p>", (T.2.2.1 rfl rfl).1, (T.2.2.1 rfl rfl).2,
    (T.2.2.2 (fun _ => true) rfl).2⟩

end HtmlToPdf
